import Mathlib

/-!
Shallow embedding of `parse_resume.py` (resume text-extraction and
section-segmentation pipeline) and verification of its specification.

Conventions of the embedding:
* Python strings are Lean `String`s; per-character work happens on `List Char`.
* Python's `str.strip` / `str.splitlines` are modelled over the whitespace and
  line-break characters relevant to ASCII/Latin-1 text (the exotic Unicode
  classes Python additionally recognises do not occur in any statement below).
* Python's `str.lower` is modelled by ASCII lowercasing (`Char.toLower`),
  faithful on ASCII input; all section keywords are ASCII.
* `re.search` is modelled by a leftmost, greedy backtracking matcher over a
  small regex AST covering exactly the constructs of `EMAIL_RE` and `PHONE_RE`.
* The effectful parts of `main` (argv, optional imports, backend results) are
  abstracted into an explicit environment `Env`; each field records what the
  corresponding Python call would have produced.
-/

namespace ParseResume

/-- Whitespace characters stripped by Python's `str.strip()` (ASCII/Latin-1
fragment). -/
def pyIsSpace (c : Char) : Bool :=
  c = ' ' || c = '\t' || c = '\n' || c = '\r' || c = '\x0b' || c = '\x0c' ||
  c = '\x1c' || c = '\x1d' || c = '\x1e' || c = '\x1f' || c = '\x85' || c = '\xa0'

/-- Python `str.strip()` on a character list. -/
def pyStripL (l : List Char) : List Char :=
  ((l.dropWhile pyIsSpace).reverse.dropWhile pyIsSpace).reverse

/-- Python `str.strip()`. -/
def pyStrip (s : String) : String :=
  String.mk (pyStripL s.toList)

/-- Line-break characters recognised by Python's `str.splitlines()`
(ASCII/Latin-1 fragment; `\r\n` is additionally treated as one break). -/
def isLineBreak (c : Char) : Bool :=
  c = '\n' || c = '\r' || c = '\x0b' || c = '\x0c' ||
  c = '\x1c' || c = '\x1d' || c = '\x1e' || c = '\x85'

/-- Worker for `str.splitlines()`: `acc` holds the current line reversed. -/
def splitlinesAux : List Char → List Char → List (List Char)
  | [], acc => [acc.reverse]
  | '\r' :: '\n' :: rest, acc =>
    acc.reverse :: (if rest = [] then [] else splitlinesAux rest [])
  | c :: rest, acc =>
    if isLineBreak c then
      acc.reverse :: (if rest = [] then [] else splitlinesAux rest [])
    else
      splitlinesAux rest (c :: acc)

/-- Python `str.splitlines()` (`"".splitlines() == []`, no trailing empty line
for a terminal break). -/
def pySplitlines (s : String) : List String :=
  match s.toList with
  | [] => []
  | c :: rest => (splitlinesAux (c :: rest) []).map String.mk

/-- Python substring test `pat in s` on character lists. -/
def hasSubstr (pat : List Char) : List Char → Bool
  | [] => pat.isEmpty
  | c :: rest => pat.isPrefixOf (c :: rest) || hasSubstr pat rest

/-- Python `pat in s` for strings. -/
def strContains (s pat : String) : Bool :=
  hasSubstr pat.toList s.toList

/-- Python `str.lower()` (ASCII fragment). -/
def pyLower (s : String) : String :=
  String.mk (s.toList.map Char.toLower)

/-- Python `s.startswith(pat)`. -/
def pyStartsWith (s pat : String) : Bool :=
  pat.toList.isPrefixOf s.toList

/-- Constant `SECTION_KEYS` from `parse_resume.py`. -/
def SECTION_KEYS : List String :=
  ["experience", "work experience", "professional experience",
   "education", "skills", "summary", "objective", "projects"]

/-- The header test of `split_sections`:
`any(k in lower and len(line) < 60 for k in SECTION_KEYS)`. -/
def isHeader (line : String) : Bool :=
  SECTION_KEYS.any (fun k => strContains (pyLower line) k && decide (line.length < 60))

/-- The key-resolution cascade of `split_sections` run on a recognised header
line (the `if lower.startswith('education') ... else: current_key = line.lower()`
chain). -/
def resolveKey (line : String) : String :=
  let lower := pyLower line
  if pyStartsWith lower "education" then "education"
  else if strContains lower "experience" then "experience"
  else if strContains lower "skill" then "skills"
  else if strContains lower "project" then "projects"
  else if strContains lower "summary" || strContains lower "objective" then "summary"
  else lower

/-- Insertion-ordered dictionary of section key to accumulated lines, the
shape of the Python `sections` dict. -/
abbrev SectionLists := List (String × List String)

/-- Python `sections.setdefault(k, [])` (discarding the returned list). -/
def setdefault : SectionLists → String → SectionLists
  | [], k => [(k, [])]
  | (k', v) :: rest, k =>
    if k' = k then (k', v) :: rest else (k', v) :: setdefault rest k

/-- Python `sections.setdefault(k, []).append(line)`. -/
def appendTo : SectionLists → String → String → SectionLists
  | [], k, line => [(k, [line])]
  | (k', v) :: rest, k, line =>
    if k' = k then (k', v ++ [line]) :: rest else (k', v) :: appendTo rest k line

/-- The per-line loop of `split_sections`: headers switch `current_key` (and
`setdefault` the new key), other lines are appended to the current section. -/
def processLines : List String → String → SectionLists → SectionLists
  | [], _, m => m
  | line :: rest, key, m =>
    if isHeader line then
      processLines rest (resolveKey line) (setdefault m (resolveKey line))
    else
      processLines rest key (appendTo m key line)

/-- Normalizer `lines = [l.strip() for l in text.splitlines()]`. -/
def normLines (text : String) : List String :=
  (pySplitlines text).map pyStrip

/-- The accumulation phase of `split_sections` (before joining). -/
def splitLists (lines : List String) : SectionLists :=
  processLines lines "summary" [("summary", [])]

/-- Function `split_sections`, join phase:
`{k: "\n".join(v).strip() for k, v in sections.items() if any(x for x in v)}`. -/
def split_sections (text : String) : List (String × String) :=
  (splitLists (normLines text)).filterMap fun kv =>
    if kv.2.any (fun x => x ≠ "") then
      some (kv.1, pyStrip (String.intercalate "\n" kv.2))
    else none

/-! ### Regex engine (the fragment used by `EMAIL_RE` and `PHONE_RE`)

Python `re` semantics: `search` tries each start position left to right; at a
given start, quantifiers are greedy with backtracking. `cls p` matches one
character of a class, `rep n p` is `p{n,}` (greedy), `opt` is `?` (greedy). -/

inductive RE where
  | cls (p : Char → Bool)
  | seq (a b : RE)
  | opt (a : RE)
  | rep (n : Nat) (p : Char → Bool)

/-- Backtracking over the lengths `m, m-1, ..., n` a greedy `p{n,}` may
consume; `k` is the continuation on the remaining input. -/
def tryLens (k : List Char → Option (List Char)) (cs : List Char) (n : Nat) :
    Nat → Option (List Char)
  | 0 => if 0 < n then none else k (cs.drop 0)
  | Nat.succ m =>
    if Nat.succ m < n then none
    else
      match k (cs.drop (Nat.succ m)) with
      | some r => some r
      | none => tryLens k cs n m

/-- CPS backtracking matcher: `matchRE r cs k` tries to match `r` at the head
of `cs`, calling `k` on each candidate remainder in Python's preference order;
returns the first remainder accepted by the whole pipeline. -/
def matchRE : RE → List Char → (List Char → Option (List Char)) → Option (List Char)
  | .cls p, cs, k =>
    match cs with
    | [] => none
    | c :: rest => if p c then k rest else none
  | .seq a b, cs, k => matchRE a cs fun cs' => matchRE b cs' k
  | .opt a, cs, k =>
    match matchRE a cs k with
    | some r => some r
    | none => k cs
  | .rep n p, cs, k => tryLens k cs n (cs.takeWhile p).length

/-- Model of `re.search`: leftmost match; returns the matched characters. -/
def searchFrom (r : RE) : List Char → Option (List Char)
  | [] => (matchRE r [] some).map fun _ => []
  | c :: rest =>
    match matchRE r (c :: rest) some with
    | some remainder =>
      some ((c :: rest).take ((c :: rest).length - remainder.length))
    | none => searchFrom r rest

/-- Character class `[A-Za-z0-9._%+-]` (email local part). -/
def emailLocalChar (c : Char) : Bool :=
  c.isAlpha || c.isDigit || c = '.' || c = '_' || c = '%' || c = '+' || c = '-'

/-- Character class `[A-Za-z0-9.-]` (email domain). -/
def emailDomainChar (c : Char) : Bool :=
  c.isAlpha || c.isDigit || c = '.' || c = '-'

/-- Character class `[\d\-\s\(\)]` (phone body; `\s` restricted to the
ASCII/Latin-1 fragment of `pyIsSpace`). -/
def phoneBodyChar (c : Char) : Bool :=
  c.isDigit || c = '-' || pyIsSpace c || c = '(' || c = ')'

/-- Pattern `EMAIL_RE`: one or more local-part characters, at sign, one or more domain characters, a dot, then two or more letters. -/
def EMAIL_RE : RE :=
  .seq (.rep 1 emailLocalChar)
    (.seq (.cls (fun c => c = '@'))
      (.seq (.rep 1 emailDomainChar)
        (.seq (.cls (fun c => c = '.')) (.rep 2 Char.isAlpha))))

/-- Pattern `PHONE_RE`: optional plus, a digit, seven or more body characters, a digit. -/
def PHONE_RE : RE :=
  .seq (.opt (.cls (fun c => c = '+')))
    (.seq (.cls Char.isDigit)
      (.seq (.rep 7 phoneBodyChar) (.cls Char.isDigit)))

/-- Search `EMAIL_RE.search(text)`, as the matched string. -/
def emailSearch (text : String) : Option String :=
  (searchFrom EMAIL_RE text.toList).map String.mk

/-- Search `PHONE_RE.search(text)`, as the matched string. -/
def phoneSearch (text : String) : Option String :=
  (searchFrom PHONE_RE text.toList).map String.mk

/-- Function `extract_basics`: first email / phone match, `''` when absent. -/
def extract_basics (text : String) : String × String :=
  ((emailSearch text).getD "", (phoneSearch text).getD "")

/-! ### `main` and its environment

`Env` abstracts the effectful surroundings of one invocation: the command-line
arguments (after the program name) and what every backend call would produce.
`Except.error` models a raised exception; `fitz_extract_text`,
`poppler_extract_text` and `read_docx` catch internally and return a string. -/

structure Env where
  argv : List String
  pdfminerAvail : Bool
  fitzAvail : Bool
  docxAvail : Bool
  pdfminerResult : Except String String
  fitzResult : String
  popplerResult : String
  docxResult : String
  txtResult : Except String String

/-- One backend attempt as seen by the `read_pdf` loop. -/
def pdfMethods (env : Env) : List (Except String String) :=
  (if env.pdfminerAvail then [env.pdfminerResult] else []) ++
  (if env.fitzAvail then [Except.ok env.fitzResult] else []) ++
  [Except.ok env.popplerResult]

/-- The `read_pdf` loop: first method that neither raises nor returns text
that is empty after stripping wins; otherwise `''`. -/
def firstNonEmpty : List (Except String String) → String
  | [] => ""
  | Except.error _ :: rest => firstNonEmpty rest
  | Except.ok t :: rest => if pyStrip t = "" then firstNonEmpty rest else t

/-- Function `read_pdf`. -/
def read_pdf (env : Env) : String :=
  firstNonEmpty (pdfMethods env)

/-- Python `os.path.splitext(path)[1].lower()`: the extension starts at the last dot
of the basename that is not among its leading dots. -/
def extOf (path : String) : String :=
  let b := (path.toList.reverse.takeWhile (fun c => c ≠ '/')).reverse
  let lead := (b.takeWhile (fun c => c = '.')).length
  let dots := (List.range b.length).filter fun i => lead ≤ i && b.getD i ' ' = '.'
  match dots.getLast? with
  | some i => pyLower (String.mk (b.drop i))
  | none => ""

/-- The text-acquisition phase of `main` (lines 176–204): every failure path
ends in `text = ''`. For `.pdf`, `read_pdf` runs only when pdfminer imported. -/
def mainText (env : Env) : String :=
  let ext := extOf (env.argv.getD 0 "")
  if ext = ".pdf" then
    if env.pdfminerAvail then read_pdf env else ""
  else if ext = ".docx" ∨ ext = ".doc" then
    if env.docxAvail then env.docxResult else ""
  else
    match env.txtResult with
    | Except.ok t => t
    | Except.error _ => ""

/-- The record printed on stdout. -/
structure Record where
  raw_text : String
  email : String
  phone : String
  sections : List (String × String)
  error : Option String
deriving DecidableEq

/-- The assembly phase of `main` (lines 206–228). -/
def assemble (text : String) : Record :=
  if pyStrip text = "" then
    { raw_text := "", email := "", phone := "",
      sections := [], error := some "No text could be extracted from the file" }
  else
    { raw_text := text
      email := (extract_basics text).1
      phone := (extract_basics text).2
      sections := split_sections text
      error := none }

/-- Function `main`: exit status and the record emitted on stdout (`none` when the
program exits before printing to stdout). `sys.argv != 2` in Python is
`argv.length != 1` here (program name excluded). -/
def mainModel (env : Env) : Nat × Option Record :=
  if env.argv.length ≠ 1 then (1, none)
  else (0, some (assemble (mainText env)))

/-! ### Derived notions used by the statements -/

/-- All accumulated lines of a `SectionLists`, in map order. -/
def joinVals (m : SectionLists) : List String :=
  (m.map Prod.snd).flatten

/-- Lines accumulated under key `k` (`[]` when `k` is absent); first entry
wins, matching dictionary semantics. -/
def lookupV : SectionLists → String → List String
  | [], _ => []
  | (k', v) :: rest, k => if k' = k then v else lookupV rest k

/-- Assignment trace of the segmenter: each non-header line paired with the
section key active when it is consumed. -/
def assignKeys : List String → String → List (String × String)
  | [], _ => []
  | line :: rest, key =>
    if isHeader line then assignKeys rest (resolveKey line)
    else (key, line) :: assignKeys rest key

/-- In-order list of lines the segmenter assigns to key `k`, starting from
active key `key`. -/
def assignedFrom (lines : List String) (key k : String) : List String :=
  (assignKeys lines key).filterMap fun p => if p.1 = k then some p.2 else none

/-- Outcome of one `read_pdf` attempt: the text, when the call neither raised
nor produced text that is empty after stripping. -/
def attemptYields : Except String String → Option String
  | Except.error _ => none
  | Except.ok t => if pyStrip t = "" then none else some t

/-- The record `main` assembles when no text could be extracted. -/
def noTextRecord : Record :=
  { raw_text := "", email := "", phone := "",
    sections := [], error := some "No text could be extracted from the file" }

/-- Environment of a PDF invocation in which pdfminer is structurally
unavailable while the poppler tool would return text. -/
def envPdfNoMiner : Env :=
  { argv := ["resume.pdf"], pdfminerAvail := false, fitzAvail := false,
    docxAvail := false, pdfminerResult := Except.error "unavailable",
    fitzResult := "", popplerResult := "Hello from poppler", docxResult := "",
    txtResult := Except.ok "" }

/-- Environment of a PDF invocation in which pdfminer raises at run time and
poppler succeeds. -/
def envPdfOk : Env :=
  { argv := ["resume.pdf"], pdfminerAvail := true, fitzAvail := false,
    docxAvail := false, pdfminerResult := Except.error "boom",
    fitzResult := "", popplerResult := "resume text", docxResult := "",
    txtResult := Except.ok "" }

/-- Environment of an invocation naming a plain-text file that does not
exist: `open` raises `FileNotFoundError`. -/
def envMissingFile : Env :=
  { argv := ["missing.txt"], pdfminerAvail := true, fitzAvail := true,
    docxAvail := true, pdfminerResult := Except.ok "", fitzResult := "",
    popplerResult := "", docxResult := "", txtResult := Except.error "FileNotFoundError" }

/-- Environment of a PDF invocation in which every backend errors or returns
empty text. -/
def envAllFail : Env :=
  { argv := ["resume.pdf"], pdfminerAvail := true, fitzAvail := true,
    docxAvail := false, pdfminerResult := Except.error "parse failure",
    fitzResult := "", popplerResult := "", docxResult := "",
    txtResult := Except.ok "" }

/-! ### Helper lemmas -/

lemma perm_append_swap {α : Type} (v J : List α) (l : α) :
    ((v ++ [l]) ++ J).Perm ((v ++ J) ++ [l]) := by
  have h : (v ++ [l]) ++ J = v ++ ([l] ++ J) := by simp
  rw [h, List.append_assoc]
  exact List.perm_append_comm.append_left v

lemma joinVals_setdefault (m : SectionLists) (k : String) :
    joinVals (setdefault m k) = joinVals m := by
  induction m with
  | nil => simp [setdefault, joinVals]
  | cons kv rest ih =>
    obtain ⟨k', v⟩ := kv
    by_cases h : k' = k
    · subst h; simp [setdefault]
    · simp [setdefault, h, joinVals] at ih ⊢
      simp [ih]

lemma joinVals_appendTo (m : SectionLists) (k : String) (l : String) :
    (joinVals (appendTo m k l)).Perm (joinVals m ++ [l]) := by
  induction m with
  | nil => simp [appendTo, joinVals]
  | cons kv rest ih =>
    obtain ⟨k', v⟩ := kv
    by_cases h : k' = k
    · subst h
      simp only [appendTo, if_pos rfl, joinVals, List.map_cons, List.flatten_cons]
      exact perm_append_swap v _ l
    · simp only [appendTo, if_neg h, joinVals, List.map_cons, List.flatten_cons]
      have step : (v ++ joinVals (appendTo rest k l)).Perm
          (v ++ (joinVals rest ++ [l])) := ih.append_left v
      simpa [joinVals, List.append_assoc] using step

lemma processLines_perm (lines : List String) :
    ∀ (key : String) (m : SectionLists),
      (joinVals (processLines lines key m)).Perm
        (joinVals m ++ lines.filter fun l => !isHeader l) := by
  induction lines with
  | nil => intro key m; simp [processLines]
  | cons line rest ih =>
    intro key m
    by_cases h : isHeader line
    · simpa [processLines, h, joinVals_setdefault] using
        ih (resolveKey line) (setdefault m (resolveKey line))
    · have e : processLines (line :: rest) key m
          = processLines rest key (appendTo m key line) := by simp [processLines, h]
      rw [e]
      refine (ih key _).trans ?_
      have hf : (line :: rest).filter (fun l => !isHeader l)
          = line :: rest.filter (fun l => !isHeader l) := by simp [h]
      rw [hf]
      refine ((joinVals_appendTo m key line).append_right _).trans ?_
      have : (joinVals m ++ [line]) ++ rest.filter (fun l => !isHeader l)
          = joinVals m ++ line :: rest.filter (fun l => !isHeader l) := by simp
      rw [this]

lemma lookupV_setdefault (m : SectionLists) (k' k : String) :
    lookupV (setdefault m k') k = lookupV m k := by
  induction m with
  | nil => by_cases h : k' = k <;> simp [setdefault, lookupV, h]
  | cons kv rest ih =>
    obtain ⟨k₀, v⟩ := kv
    by_cases h : k₀ = k'
    · subst h; simp [setdefault]
    · by_cases h2 : k₀ = k
      · subst h2; simp [setdefault, h, lookupV]
      · simp [setdefault, h, lookupV, h2, ih]

lemma lookupV_appendTo (m : SectionLists) (k' k l : String) :
    lookupV (appendTo m k' l) k = lookupV m k ++ (if k = k' then [l] else []) := by
  induction m with
  | nil =>
    by_cases h : k' = k
    · subst h; simp [appendTo, lookupV]
    · simp [appendTo, lookupV, h, Ne.symm h]
  | cons kv rest ih =>
    obtain ⟨k₀, v⟩ := kv
    by_cases h : k₀ = k'
    · subst h
      by_cases h2 : k₀ = k
      · subst h2; simp [appendTo, lookupV]
      · simp [appendTo, lookupV, h2, Ne.symm h2]
    · by_cases h2 : k₀ = k
      · subst h2
        simp [appendTo, lookupV, h, ih, Ne.symm h]
      · simp [appendTo, lookupV, h, h2, ih]

lemma assignedFrom_cons_header (line : String) (rest : List String) (key k : String)
    (h : isHeader line = true) :
    assignedFrom (line :: rest) key k = assignedFrom rest (resolveKey line) k := by
  simp [assignedFrom, assignKeys, h]

lemma assignedFrom_cons_line (line : String) (rest : List String) (key k : String)
    (h : isHeader line = false) :
    assignedFrom (line :: rest) key k
      = (if key = k then [line] else []) ++ assignedFrom rest key k := by
  by_cases h2 : key = k <;> simp [assignedFrom, assignKeys, h, h2]

lemma processLines_lookupV (lines : List String) :
    ∀ (key : String) (m : SectionLists) (k : String),
      lookupV (processLines lines key m) k = lookupV m k ++ assignedFrom lines key k := by
  induction lines with
  | nil => intro key m k; simp [processLines, assignedFrom, assignKeys]
  | cons line rest ih =>
    intro key m k
    by_cases h : isHeader line
    · rw [assignedFrom_cons_header line rest key k h]
      have e : processLines (line :: rest) key m
          = processLines rest (resolveKey line) (setdefault m (resolveKey line)) := by
        simp [processLines, h]
      rw [e, ih, lookupV_setdefault]
    · rw [assignedFrom_cons_line line rest key k (by simpa using h)]
      have e : processLines (line :: rest) key m
          = processLines rest key (appendTo m key line) := by simp [processLines, h]
      rw [e, ih, lookupV_appendTo]
      by_cases h2 : key = k
      · subst h2; simp
      · simp [h2, Ne.symm h2]

lemma keys_setdefault (m : SectionLists) (k : String) :
    (setdefault m k).map Prod.fst =
      if k ∈ m.map Prod.fst then m.map Prod.fst else m.map Prod.fst ++ [k] := by
  induction m with
  | nil => simp [setdefault]
  | cons kv rest ih =>
    obtain ⟨k₀, v⟩ := kv
    by_cases h : k₀ = k
    · subst h; simp [setdefault]
    · by_cases h2 : k ∈ rest.map Prod.fst <;>
        simp [setdefault, h, ih, h2, Ne.symm h]

lemma keys_appendTo (m : SectionLists) (k l : String) :
    (appendTo m k l).map Prod.fst =
      if k ∈ m.map Prod.fst then m.map Prod.fst else m.map Prod.fst ++ [k] := by
  induction m with
  | nil => simp [appendTo]
  | cons kv rest ih =>
    obtain ⟨k₀, v⟩ := kv
    by_cases h : k₀ = k
    · subst h; simp [appendTo]
    · by_cases h2 : k ∈ rest.map Prod.fst <;>
        simp [appendTo, h, ih, h2, Ne.symm h]

lemma nodup_keys_extend (ks : List String) (k : String) (hk : ks.Nodup) :
    (if k ∈ ks then ks else ks ++ [k]).Nodup := by
  by_cases h : k ∈ ks
  · simpa [h]
  · have hcons : (k :: ks).Nodup := by simp [hk, h]
    have hperm : (ks ++ [k]).Perm (k :: ks) := List.perm_append_singleton k ks
    simpa [h] using hperm.nodup_iff.mpr hcons

lemma processLines_nodup_keys (lines : List String) :
    ∀ (key : String) (m : SectionLists),
      (m.map Prod.fst).Nodup → ((processLines lines key m).map Prod.fst).Nodup := by
  induction lines with
  | nil => intro key m hm; simpa [processLines]
  | cons line rest ih =>
    intro key m hm
    by_cases h : isHeader line
    · have e : processLines (line :: rest) key m
          = processLines rest (resolveKey line) (setdefault m (resolveKey line)) := by
        simp [processLines, h]
      rw [e]
      refine ih _ _ ?_
      rw [keys_setdefault]
      exact nodup_keys_extend _ _ hm
    · have e : processLines (line :: rest) key m
          = processLines rest key (appendTo m key line) := by simp [processLines, h]
      rw [e]
      refine ih _ _ ?_
      rw [keys_appendTo]
      exact nodup_keys_extend _ _ hm

lemma processLines_noHeader (lines : List String) :
    ∀ acc : List String, (∀ l ∈ lines, isHeader l = false) →
      processLines lines "summary" [("summary", acc)] = [("summary", acc ++ lines)] := by
  induction lines with
  | nil => intro acc _; simp [processLines]
  | cons line rest ih =>
    intro acc hno
    have h1 : isHeader line = false := hno line (by simp)
    have h2 : ∀ l ∈ rest, isHeader l = false := fun l hl => hno l (by simp [hl])
    have e : appendTo [("summary", acc)] "summary" line = [("summary", acc ++ [line])] := by
      simp [appendTo]
    simp [processLines, h1, e, ih (acc ++ [line]) h2]

lemma assignedFrom_takeWhile (lines : List String) :
    ∀ key : String, ∃ rest, assignedFrom lines key key =
      lines.takeWhile (fun l => !isHeader l) ++ rest := by
  induction lines with
  | nil => intro key; exact ⟨[], by simp [assignedFrom, assignKeys]⟩
  | cons line rest ih =>
    intro key
    by_cases h : isHeader line
    · exact ⟨assignedFrom (line :: rest) key key, by simp [List.takeWhile, h]⟩
    · obtain ⟨tail, htail⟩ := ih key
      refine ⟨tail, ?_⟩
      rw [assignedFrom_cons_line line rest key key (by simpa using h)]
      simp [List.takeWhile, h, htail]

lemma firstNonEmpty_eq (l : List (Except String String)) :
    firstNonEmpty l = ((l.filterMap attemptYields).headD "") := by
  induction l with
  | nil => simp [firstNonEmpty]
  | cons x rest ih =>
    cases x with
    | error e => simp [firstNonEmpty, attemptYields, ih]
    | ok t =>
      by_cases h : pyStrip t = "" <;> simp [firstNonEmpty, attemptYields, h, ih]

lemma mainText_pdf (env : Env) (hext : extOf (env.argv.getD 0 "") = ".pdf") :
    mainText env = if env.pdfminerAvail then read_pdf env else "" := by
  simp only [mainText]
  rw [if_pos hext]

lemma mainText_other (env : Env) (hp : extOf (env.argv.getD 0 "") ≠ ".pdf")
    (hdx : extOf (env.argv.getD 0 "") ≠ ".docx")
    (hd : extOf (env.argv.getD 0 "") ≠ ".doc") :
    mainText env = match env.txtResult with
      | Except.ok t => t
      | Except.error _ => "" := by
  simp only [mainText]
  rw [if_neg hp, if_neg (by tauto)]

/-! ### Claims -/

/-- C3: a line is a section header iff its length is strictly below 60 and
its lowercase form contains one of the fixed keywords; in particular a line
longer than 60 characters containing "experience" is never a header, and the
exact line "Experience" starts a section keyed `experience`. -/
theorem C3_header_iff :
    (∀ line : String, isHeader line = true ↔
      (line.length < 60 ∧ ∃ k ∈ SECTION_KEYS, strContains (pyLower line) k = true))
    ∧ (∀ line : String, 60 < line.length →
        strContains (pyLower line) "experience" = true → isHeader line = false)
    ∧ isHeader "Experience" = true
    ∧ resolveKey "Experience" = "experience"
    ∧ split_sections "Experience\nBuilt things" = [("experience", "Built things")] := by
  have hiff : ∀ line : String, isHeader line = true ↔
      (line.length < 60 ∧ ∃ k ∈ SECTION_KEYS, strContains (pyLower line) k = true) := by
    intro line
    simp only [isHeader, List.any_eq_true, Bool.and_eq_true, decide_eq_true_eq]
    constructor
    · rintro ⟨k, hk, hc, hl⟩
      exact ⟨hl, k, hk, hc⟩
    · rintro ⟨hl, k, hk, hc⟩
      exact ⟨k, hk, hc, hl⟩
  refine ⟨hiff, ?_, by decide, by decide, by decide⟩
  intro line hlen _
  cases hh : isHeader line with
  | false => rfl
  | true =>
    have hlt := ((hiff line).mp hh).1
    omega

/-- Witness for C3: a 96-character line mentioning "experience" is not
treated as a header. -/
theorem C3_header_iff_witness :
    isHeader "This is a very long narrative line about my professional experience working at various companies" = false :=
  C3_header_iff.2.1 _ (by decide) (by decide)

/-- C4: the lines accumulated across all sections are exactly the non-header
lines of the normalized line sequence (no drop, no duplication); header lines
are accumulated nowhere; and a key appears in the final map only if it
accumulated at least one non-blank line. -/
theorem C4_coverage (text : String) :
    ((joinVals (splitLists (normLines text))).Perm
      ((normLines text).filter fun l => !isHeader l))
    ∧ (∀ h : String, isHeader h = true → h ∉ joinVals (splitLists (normLines text)))
    ∧ (∀ k s, (k, s) ∈ split_sections text →
        ∃ v, (k, v) ∈ splitLists (normLines text) ∧ v.any (fun x => x ≠ "") = true) := by
  have hperm : (joinVals (splitLists (normLines text))).Perm
      ((normLines text).filter fun l => !isHeader l) := by
    simpa [splitLists, joinVals] using
      processLines_perm (normLines text) "summary" [("summary", [])]
  refine ⟨hperm, ?_, ?_⟩
  · intro h hh hmem
    have : h ∈ (normLines text).filter fun l => !isHeader l := hperm.mem_iff.mp hmem
    have := (List.mem_filter.mp this).2
    simp [hh] at this
  · intro k s hmem
    obtain ⟨⟨k', v⟩, hkv, heq⟩ := List.mem_filterMap.mp hmem
    by_cases hcond : v.any (fun x => x ≠ "") = true
    · simp only [hcond, if_true] at heq
      have hk : k' = k := (Prod.ext_iff.mp (Option.some.inj heq)).1
      exact ⟨v, hk ▸ hkv, hcond⟩
    · rw [if_neg hcond] at heq
      exact Option.noConfusion heq

/-- Witness for C4: the header line "Experience" lands in no section. -/
theorem C4_coverage_witness :
    "Experience" ∉ joinVals (splitLists (normLines "Experience\nBuilt things")) :=
  (C4_coverage "Experience\nBuilt things").2.1 "Experience" (by decide)

/-- C5: a recognised header resolves to its canonical key by the priority
order education (prefix), experience, skills, projects, summary/objective,
else the lowercased line itself; and a header line is appended to no
section's accumulated lines. -/
theorem C5_resolution :
    (∀ line, pyStartsWith (pyLower line) "education" = true →
      resolveKey line = "education")
    ∧ (∀ line, pyStartsWith (pyLower line) "education" = false →
        strContains (pyLower line) "experience" = true →
        resolveKey line = "experience")
    ∧ (∀ line, pyStartsWith (pyLower line) "education" = false →
        strContains (pyLower line) "experience" = false →
        strContains (pyLower line) "skill" = true →
        resolveKey line = "skills")
    ∧ (∀ line, pyStartsWith (pyLower line) "education" = false →
        strContains (pyLower line) "experience" = false →
        strContains (pyLower line) "skill" = false →
        strContains (pyLower line) "project" = true →
        resolveKey line = "projects")
    ∧ (∀ line, pyStartsWith (pyLower line) "education" = false →
        strContains (pyLower line) "experience" = false →
        strContains (pyLower line) "skill" = false →
        strContains (pyLower line) "project" = false →
        (strContains (pyLower line) "summary" = true ∨
          strContains (pyLower line) "objective" = true) →
        resolveKey line = "summary")
    ∧ (∀ line, pyStartsWith (pyLower line) "education" = false →
        strContains (pyLower line) "experience" = false →
        strContains (pyLower line) "skill" = false →
        strContains (pyLower line) "project" = false →
        strContains (pyLower line) "summary" = false →
        strContains (pyLower line) "objective" = false →
        resolveKey line = pyLower line)
    ∧ (∀ (lines : List String) (h : String), isHeader h = true →
        h ∉ joinVals (processLines lines "summary" [("summary", [])])) := by
  refine ⟨?_, ?_, ?_, ?_, ?_, ?_, ?_⟩
  · intro line h1; simp [resolveKey, h1]
  · intro line h1 h2; simp [resolveKey, h1, h2]
  · intro line h1 h2 h3; simp [resolveKey, h1, h2, h3]
  · intro line h1 h2 h3 h4; simp [resolveKey, h1, h2, h3, h4]
  · intro line h1 h2 h3 h4 h5
    rcases h5 with h5 | h5 <;> simp [resolveKey, h1, h2, h3, h4, h5]
  · intro line h1 h2 h3 h4 h5 h6; simp [resolveKey, h1, h2, h3, h4, h5, h6]
  · intro lines h hh hmem
    have hperm := processLines_perm lines "summary" [("summary", [])]
    have hmem2 := hperm.mem_iff.mp hmem
    simp only [joinVals, List.map_cons, List.map_nil, List.flatten_cons,
      List.flatten_nil, List.append_nil, List.nil_append] at hmem2
    have := (List.mem_filter.mp hmem2).2
    simp [hh] at this

/-- Witness for C5: the header "Skills" resolves to key `skills`. -/
theorem C5_resolution_witness : resolveKey "Skills" = "skills" :=
  C5_resolution.2.2.1 "Skills" (by decide) (by decide) (by decide)

/-- C8: segmentation starts in `summary` (the summary entry begins with all
lines preceding the first recognised header), and with no recognisable header
every line accrues to `summary`, so the final map is empty or a sole
`summary` entry. -/
theorem C8_initial_summary (text : String) :
    (∃ rest, lookupV (splitLists (normLines text)) "summary"
        = (normLines text).takeWhile (fun l => !isHeader l) ++ rest)
    ∧ ((∀ l ∈ normLines text, isHeader l = false) →
        splitLists (normLines text) = [("summary", normLines text)]
        ∧ (split_sections text = [] ∨
            ∃ s, split_sections text = [("summary", s)])) := by
  constructor
  · obtain ⟨rest, hrest⟩ := assignedFrom_takeWhile (normLines text) "summary"
    refine ⟨rest, ?_⟩
    have h0 := processLines_lookupV (normLines text) "summary" [("summary", [])] "summary"
    simp only [lookupV, ite_self, List.nil_append] at h0
    rw [splitLists, h0, hrest]
  · intro hno
    have hsplit : splitLists (normLines text) = [("summary", normLines text)] := by
      simpa [splitLists] using processLines_noHeader (normLines text) [] hno
    refine ⟨hsplit, ?_⟩
    by_cases hany : (normLines text).any (fun x => x ≠ "") = true
    · right
      refine ⟨pyStrip (String.intercalate "\n" (normLines text)), ?_⟩
      unfold split_sections
      rw [hsplit]
      simp only [List.filterMap_cons, List.filterMap_nil]
      rw [if_pos hany]
    · left
      unfold split_sections
      rw [hsplit]
      simp only [List.filterMap_cons, List.filterMap_nil]
      rw [if_neg hany]

/-- Witness for C8: a two-line text with no headers is placed wholly under
`summary`. -/
theorem C8_initial_summary_witness :
    splitLists (normLines "hello there\nworld") = [("summary", ["hello there", "world"])] := by
  have h := ((C8_initial_summary "hello there\nworld").2 (by decide)).1
  rw [h]; decide

/-- C9: the pure pipeline stages are deterministic: equal extracted texts
give equal section maps, contact fields, and assembled records. -/
theorem C9_deterministic (t₁ t₂ : String) (h : t₁ = t₂) :
    split_sections t₁ = split_sections t₂
    ∧ extract_basics t₁ = extract_basics t₂
    ∧ assemble t₁ = assemble t₂ := by
  subst h; exact ⟨rfl, rfl, rfl⟩

/-- Witness for C9 at a concrete text. -/
theorem C9_deterministic_witness :
    split_sections "Experience\nBuilt things" = split_sections "Experience\nBuilt things" :=
  (C9_deterministic "Experience\nBuilt things" "Experience\nBuilt things" rfl).1

/-- C10: section keys are pairwise distinct (one map entry per key), and the
entry of key `k` is exactly the in-order list of non-header lines assigned to
`k`, so lines following a repeated header are appended after the earlier
occurrence's lines, never overwriting or dropping them. -/
theorem C10_reentry (text : String) (k : String) :
    ((splitLists (normLines text)).map Prod.fst).Nodup
    ∧ lookupV (splitLists (normLines text)) k
        = assignedFrom (normLines text) "summary" k := by
  constructor
  · exact processLines_nodup_keys (normLines text) "summary" [("summary", [])] (by simp)
  · have := processLines_lookupV (normLines text) "summary" [("summary", [])] k
    simpa [splitLists, lookupV] using this

/-- C6: on the text "Contact: jane.doe@example.com, (555) 123-4567" the field
extractor yields email `jane.doe@example.com` and a phone that is the first
`PHONE_RE` match, carrying the ten digits 5551234567 in grouped form; in
general the first match in document order is retained and absence of a match
yields the empty field. -/
theorem C6_contacts :
    extract_basics "Contact: jane.doe@example.com, (555) 123-4567"
      = ("jane.doe@example.com", "555) 123-4567")
    ∧ phoneSearch "Contact: jane.doe@example.com, (555) 123-4567"
      = some "555) 123-4567"
    ∧ "555) 123-4567".toList.filter Char.isDigit = "5551234567".toList
    ∧ (∀ t, emailSearch t = none → (extract_basics t).1 = "")
    ∧ (∀ t, phoneSearch t = none → (extract_basics t).2 = "")
    ∧ (∀ t m, emailSearch t = some m → (extract_basics t).1 = m)
    ∧ (∀ t m, phoneSearch t = some m → (extract_basics t).2 = m) := by
  refine ⟨by decide, by decide, by decide, ?_, ?_, ?_, ?_⟩
  · intro t h; simp [extract_basics, h]
  · intro t h; simp [extract_basics, h]
  · intro t m h; simp [extract_basics, h]
  · intro t m h; simp [extract_basics, h]

/-- Witness for C6: a text without an at sign yields an empty email field. -/
theorem C6_contacts_witness : (extract_basics "no address here").1 = "" :=
  C6_contacts.2.2.2.1 "no address here" (by decide)

/-- C7: whenever the extracted text is empty after trimming (in particular
when every backend errored or returned empty), the program still exits with
status 0 and emits one well-formed record with empty raw text, empty section
map, and a populated error field. -/
theorem C7_empty_record (env : Env) (h1 : env.argv.length = 1)
    (h2 : pyStrip (mainText env) = "") :
    mainModel env = (0, some noTextRecord)
    ∧ noTextRecord.raw_text = "" ∧ noTextRecord.sections = []
    ∧ noTextRecord.error ≠ none := by
  refine ⟨?_, rfl, rfl, by simp [noTextRecord]⟩
  simp [mainModel, h1, assemble, h2, noTextRecord]

/-- Witness for C7: with pdfminer raising and the other PDF backends
returning empty text, the emitted record is the empty record with a populated
error and the exit status is 0. -/
theorem C7_empty_record_witness : mainModel envAllFail = (0, some noTextRecord) :=
  (C7_empty_record envAllFail (by decide) (by decide)).1

/-- C1 as stated is false on the code: `main` consults only the pdfminer
availability flag before calling `read_pdf`, so a structurally unavailable
pdfminer skips the whole chain. Here poppler would return "Hello from
poppler", yet extraction returns the empty string. -/
theorem C1_counterexample :
    mainText envPdfNoMiner = ""
    ∧ pyStrip envPdfNoMiner.popplerResult ≠ ""
    ∧ mainText envPdfNoMiner ≠ envPdfNoMiner.popplerResult := by decide

/-- C1 (amended): within `read_pdf` the backends run strictly in the order
pdfminer, PyMuPDF, poppler, an unavailable backend is skipped exactly like a
failed one and the first result non-empty after trimming is returned; but
`main` invokes `read_pdf` only when pdfminer is importable — when pdfminer is
structurally unavailable the entire chain is skipped and extraction yields
empty text. -/
theorem C1_pdf_chain (env : Env)
    (hext : extOf (env.argv.getD 0 "") = ".pdf") :
    (env.pdfminerAvail = false → mainText env = "")
    ∧ (env.pdfminerAvail = true →
        mainText env = ((pdfMethods env).filterMap attemptYields).headD "")
    ∧ (∀ t, env.pdfminerAvail = true → env.pdfminerResult = Except.ok t →
        pyStrip t ≠ "" → mainText env = t) := by
  refine ⟨?_, ?_, ?_⟩
  · intro h
    rw [mainText_pdf env hext, if_neg (by simp [h])]
  · intro h
    rw [mainText_pdf env hext, if_pos h]
    exact firstNonEmpty_eq (pdfMethods env)
  · intro t h hok hne
    rw [mainText_pdf env hext, if_pos h]
    simp [read_pdf, pdfMethods, h, hok, firstNonEmpty, hne]

/-- Witness for C1 (amended): pdfminer raises at run time, so the chain falls
through to poppler's non-empty text. -/
theorem C1_pdf_chain_witness : mainText envPdfOk = "resume text" := by
  have h := (C1_pdf_chain envPdfOk (by decide)).2.1 (by decide)
  rw [h]; decide

/-- C2 as stated is false on the code: a missing input file is not surfaced
as a non-zero exit before extraction; the open raises, the handler absorbs it
into empty text, and `main` emits a record with exit status 0. -/
theorem C2_counterexample :
    (mainModel envMissingFile).1 = 0 ∧ (mainModel envMissingFile).2 ≠ none := by decide

/-- C2 (amended): only a wrong argument count is an invocation error, exiting
with status 1 and producing nothing on stdout; with one argument the exit
status is always 0 and a record is always emitted — in particular a missing
plain-text file (its read raises) yields the well-formed empty record with a
populated error field. -/
theorem C2_invocation (env : Env) (e : String) :
    (env.argv.length ≠ 1 → mainModel env = (1, none))
    ∧ (env.argv.length = 1 → (mainModel env).1 = 0 ∧ (mainModel env).2 ≠ none)
    ∧ (env.argv.length = 1 → env.txtResult = Except.error e →
        extOf (env.argv.getD 0 "") ≠ ".pdf" →
        extOf (env.argv.getD 0 "") ≠ ".docx" →
        extOf (env.argv.getD 0 "") ≠ ".doc" →
        mainModel env = (0, some noTextRecord)) := by
  refine ⟨?_, ?_, ?_⟩
  · intro h; simp [mainModel, h]
  · intro h; simp [mainModel, h]
  · intro h1 herr hp hdx hd
    have htext : mainText env = "" := by
      rw [mainText_other env hp hdx hd, herr]
    have hassemble : assemble "" = noTextRecord := by decide
    simp [mainModel, h1, htext, hassemble]

/-- Witness for C2 (amended): the missing-file environment produces the empty
record with exit status 0. -/
theorem C2_invocation_witness : mainModel envMissingFile = (0, some noTextRecord) :=
  (C2_invocation envMissingFile "FileNotFoundError").2.2 (by decide) rfl
    (by decide) (by decide) (by decide)

end ParseResume
